import Mathlib

/-!
# Verification of the SMS broadcast outbox pipeline

A shallow embedding of the `golang-sms-broadcast` repository: the domain
types of `internal/domain/message.go`, the store operations of
`internal/adapters/db/postgres/repository.go`, the service operations of
`internal/app/service.go`, the broker ack/nack dispatch of
`internal/adapters/queue/rabbitmq/consumer.go`, and the DLR HTTP handler of
`internal/transport/http.go`.

UUIDs are modelled as `Nat` where only identity matters and as canonical
strings where the wire format matters; wall-clock time is passed explicitly
as a `Nat` parameter (`time.Now().UTC()` at each call site); infrastructure
failures (store unavailable, broker publish failure, gateway error) are
injected through explicit failure oracles.  The message status is a string,
exactly as in Go (`type Status string`).
-/

/-- Go: `type Status string` (`internal/domain/message.go`).  Statuses are
plain strings; nothing in the Go type restricts the value set. -/
abbrev Status := String

/-- Go constant `StatusPending`. -/
def StatusPending : Status := "pending"

/-- Go constant `StatusQueued`. -/
def StatusQueued : Status := "queued"

/-- Go constant `StatusSent`. -/
def StatusSent : Status := "sent"

/-- Go constant `StatusDelivered`. -/
def StatusDelivered : Status := "delivered"

/-- Go constant `StatusFailed`. -/
def StatusFailed : Status := "failed"

/-- Go struct `domain.Message`.  `id` and `broadcastId` are `uuid.UUID`
values, modelled as `Nat`; `providerId` is the nullable external id column,
with `""` standing for NULL exactly as in the Go struct (string zero
value); timestamps are abstract instants. -/
structure Message where
  id : Nat
  broadcastId : Nat
  toNumber : String
  body : String
  status : Status
  providerId : String
  createdAt : Nat
  updatedAt : Nat
deriving Repr, DecidableEq

/-- Go struct `domain.Broadcast`. -/
structure Broadcast where
  id : Nat
  name : String
  createdAt : Nat
deriving Repr, DecidableEq

/-- The relational store: the `broadcasts` and `messages` tables, each a
list of rows in physical order. -/
structure Store where
  broadcasts : List Broadcast
  messages : List Message
deriving Repr, DecidableEq

/-- Errors surfaced by the repository.  `notFound` models the
`RowsAffected == 0` / `ErrMessageNotFound` path; `invalidStatus` models the
declared-but-never-returned `domain.ErrInvalidStatus`. -/
inductive RepoError where
  | notFound
  | invalidStatus
deriving Repr, DecidableEq

deriving instance DecidableEq for Except

/-- Go `domain.NewBroadcast`. -/
def newBroadcast (id : Nat) (name : String) (now : Nat) : Broadcast :=
  { id := id, name := name, createdAt := now }

/-- Go `domain.NewMessage`: a fresh row in status pending with empty
provider id and both timestamps set to now. -/
def newMessage (id broadcastId : Nat) (toNumber body : String) (now : Nat) : Message :=
  { id := id, broadcastId := broadcastId, toNumber := toNumber, body := body,
    status := StatusPending, providerId := "", createdAt := now, updatedAt := now }

/-- Repository `SaveBroadcast`: a single-row INSERT (its own commit). -/
def saveBroadcast (b : Broadcast) (st : Store) : Store :=
  { st with broadcasts := st.broadcasts ++ [b] }

/-- Repository `SaveMessages`: a batch INSERT of message rows (its own
transaction, separate from `SaveBroadcast`). -/
def saveMessages (msgs : List Message) (st : Store) : Store :=
  { st with messages := st.messages ++ msgs }

/-- The publisher's selection order: `ORDER BY created_at ASC`.  The SQL
names no further sort key, so equal timestamps are returned in an order the
database does not specify; the embedding realizes the query as a stable
sort over the table's physical row order, one legitimate behaviour of the
query. -/
def msgOrder (a b : Message) : Prop := a.createdAt ≤ b.createdAt

instance : DecidableRel msgOrder := fun a b => Nat.decLe a.createdAt b.createdAt

instance : IsTotal Message msgOrder := ⟨fun a b => Nat.le_total a.createdAt b.createdAt⟩

instance : IsTrans Message msgOrder := ⟨fun _ _ _ h h2 => Nat.le_trans h h2⟩

/-- Repository `GetPendingMessages`: rows with `status = 'pending'`,
ordered by `created_at` ascending, `LIMIT limit`. -/
def getPendingMessages (limit : Nat) (st : Store) : List Message :=
  ((st.messages.filter (fun m => m.status == StatusPending)).insertionSort msgOrder).take limit

/-- The per-row effect of the `UPDATE ... WHERE id = ?` status write. -/
def updRowStatus (id : Nat) (status : Status) (now : Nat) (m : Message) : Message :=
  if m.id == id then { m with status := status, updatedAt := now } else m

/-- The per-row effect of the `UPDATE ... WHERE provider_id = ?` status
write. -/
def updRowByPid (pid : String) (status : Status) (now : Nat) (m : Message) : Message :=
  if m.providerId == pid then { m with status := status, updatedAt := now } else m

/-- The per-row effect of the `UPDATE ... SET provider_id WHERE id = ?`
write. -/
def updRowPid (id : Nat) (pid : String) (now : Nat) (m : Message) : Message :=
  if m.id == id then { m with providerId := pid, updatedAt := now } else m

/-- Repository `UpdateMessageStatus`: an unconditional
`UPDATE messages SET status, updated_at WHERE id = ?`; the affected-row
count is checked and zero yields the not-found error. -/
def updateMessageStatus (id : Nat) (status : Status) (now : Nat) (st : Store) :
    Except RepoError Store :=
  if st.messages.any (fun m => m.id == id) then
    .ok { st with messages := st.messages.map (updRowStatus id status now) }
  else .error .notFound

/-- Repository `UpdateMessageStatusByProviderID`: the same unconditional
UPDATE keyed on `provider_id`. -/
def updateMessageStatusByProviderID (pid : String) (status : Status) (now : Nat) (st : Store) :
    Except RepoError Store :=
  if st.messages.any (fun m => m.providerId == pid) then
    .ok { st with messages := st.messages.map (updRowByPid pid status now) }
  else .error .notFound

/-- Repository `SetProviderID`: an unconditional
`UPDATE messages SET provider_id, updated_at WHERE id = ?` (no guard on the
current value), not-found when zero rows matched. -/
def setProviderID (id : Nat) (pid : String) (now : Nat) (st : Store) :
    Except RepoError Store :=
  if st.messages.any (fun m => m.id == id) then
    .ok { st with messages := st.messages.map (updRowPid id pid now) }
  else .error .notFound

/-! ## Service layer (`internal/app/service.go`) -/

/-- Input of `BroadcastService.CreateBroadcast`. -/
structure CreateBroadcastRequest where
  name : String
  body : String
  recipient : List String

/-- Infrastructure-failure oracle for the two store calls made by
`CreateBroadcast`. -/
structure CreateFailures where
  saveBroadcastFails : Bool
  saveMessagesFails : Bool

/-- Service-level error markers for `CreateBroadcast`. -/
inductive SvcError where
  | saveBroadcastError
  | saveMessagesError
deriving Repr, DecidableEq

/-- `BroadcastService.CreateBroadcast`: builds the broadcast, calls
`SaveBroadcast` (first commit), then builds the messages and calls
`SaveMessages` (second, separate commit).  `bId` and `msgId` supply the
`uuid.New()` results; the returned store is the persisted state when the
call returns, including the partially committed state on a `SaveMessages`
failure. -/
def createBroadcast (req : CreateBroadcastRequest) (bId : Nat) (msgId : Nat → Nat)
    (now : Nat) (f : CreateFailures) (st : Store) : Store × Option SvcError :=
  let b := newBroadcast bId req.name now
  if f.saveBroadcastFails then (st, some .saveBroadcastError)
  else
    let st1 := saveBroadcast b st
    let msgs := ((List.range req.recipient.length).zip req.recipient).map
      (fun p => newMessage (msgId p.1) bId p.2 req.body now)
    if f.saveMessagesFails then (st1, some .saveMessagesError)
    else (saveMessages msgs st1, none)

/-- Infrastructure-failure oracle for one publisher poll cycle, keyed by
message id: `markQueuedFails` fails the pending→queued store update,
`publishFails` fails the broker publish. -/
structure PublishOracles where
  markQueuedFails : Nat → Bool
  publishFails : Nat → Bool

/-- One observable event of a publisher cycle, in execution order. -/
inductive PubEvent where
  | markQueued (id : Nat) (ok : Bool)
  | publish (id : Nat) (ok : Bool)
  | compensate (id : Nat)
deriving Repr, DecidableEq

/-- State accumulated by one publisher poll cycle: the store, the
messages accepted by the broker (in publish order), the `published`
counter, and the event trace. -/
structure PublishResult where
  store : Store
  broker : List Message
  published : Nat
  trace : List PubEvent
deriving Repr, DecidableEq

/-- Result of a store call whose error the caller discards (`_ =` in Go):
the new store on success, the unchanged store on error. -/
def orKeep (r : Except RepoError Store) (st : Store) : Store :=
  match r with
  | .ok s => s
  | .error _ => st

/-- The loop body of `PublishPendingMessages` for a single selected row:
(1) `UpdateMessageStatus(id, queued)` — on error, log and continue;
(2) `Publish` — on error, compensate with `UpdateMessageStatus(id,
pending)` (whose own error is discarded: `_ =` in the source), log and
continue; otherwise count the publish. -/
def publishStep (o : PublishOracles) (now : Nat) (acc : PublishResult) (msg : Message) :
    PublishResult :=
  if o.markQueuedFails msg.id then
    { acc with trace := acc.trace ++ [.markQueued msg.id false] }
  else
    match updateMessageStatus msg.id StatusQueued now acc.store with
    | .error _ => { acc with trace := acc.trace ++ [.markQueued msg.id false] }
    | .ok st1 =>
      if o.publishFails msg.id then
        let st2 := orKeep (updateMessageStatus msg.id StatusPending now st1) st1
        { acc with
          store := st2,
          trace := acc.trace ++ [.markQueued msg.id true, .publish msg.id false,
                                 .compensate msg.id] }
      else
        { store := st1, broker := acc.broker ++ [msg], published := acc.published + 1,
          trace := acc.trace ++ [.markQueued msg.id true, .publish msg.id true] }

/-- `BroadcastService.PublishPendingMessages`: select up to `batchSize`
pending rows and run the three-step handoff on each in order. -/
def publishPendingMessages (batchSize : Nat) (o : PublishOracles) (now : Nat) (st : Store) :
    PublishResult :=
  (getPendingMessages batchSize st).foldl (publishStep o now) ⟨st, [], 0, []⟩

/-- Infrastructure oracle for one worker delivery: the gateway outcome of
`provider.Send` (an external id on success), and failure switches for the
two store writes. -/
structure WorkerOracles where
  sendResult : Except Unit String
  setPidFails : Bool
  updSentFails : Bool

/-- `BroadcastService.SendMessage`.  Gateway error: mark failed (store
error discarded) and return the error.  Gateway success: `SetProviderID`
(an error here is only logged), then `UpdateMessageStatus(sent)` whose
error is returned.  The boolean is `true` exactly when the Go method
returns `nil`. -/
def sendMessage (o : WorkerOracles) (now : Nat) (msg : Message) (st : Store) :
    Store × Bool :=
  match o.sendResult with
  | .error _ =>
    (orKeep (updateMessageStatus msg.id StatusFailed now st) st, false)
  | .ok pid =>
    let st1 :=
      if o.setPidFails then st
      else orKeep (setProviderID msg.id pid now st) st
    if o.updSentFails then (st1, false)
    else
      match updateMessageStatus msg.id StatusSent now st1 with
      | .error _ => (st1, false)
      | .ok st2 => (st2, true)

/-- The broker's per-delivery verdict (`consumer.go`). -/
inductive AckDecision where
  | ack
  | nackRequeue
  | nackDiscard
deriving Repr, DecidableEq

/-- One iteration of `Consumer.Consume`: a malformed payload (`none`) is
nacked without requeue; otherwise the handler (`SendMessage`) runs and the
delivery is acked when it returns nil, nacked with requeue when it returns
an error. -/
def consumeDelivery (payload : Option Message) (o : WorkerOracles) (now : Nat) (st : Store) :
    Store × AckDecision :=
  match payload with
  | none => (st, .nackDiscard)
  | some msg =>
    let r := sendMessage o now msg st
    if r.2 then (r.1, .ack) else (r.1, .nackRequeue)

/-- `BroadcastService.HandleDLR`: delegates to
`UpdateMessageStatusByProviderID` with the string form of the provider id. -/
def handleDLR (pid : String) (status : Status) (now : Nat) (st : Store) :
    Except RepoError Store :=
  updateMessageStatusByProviderID pid status now st

/-! ## DLR HTTP layer (`internal/transport/http.go`) -/

/-- Lowercase hexadecimal digit. -/
def isHexLower (c : Char) : Bool := c.isDigit || ('a' ≤ c && c ≤ 'f')

/-- Canonical 8-4-4-4-12 UUID shape. -/
def uuidShape (cs : List Char) : Bool :=
  cs.length == 36 &&
  (List.range 36).all (fun i =>
    match cs.get? i with
    | none => false
    | some c =>
      if i == 8 || i == 13 || i == 18 || i == 23 then c == '-' else isHexLower c)

/-- Modelled from the spec: `uuid.Parse` of github.com/google/uuid is
third-party code not in this repository; per the spec (section 6) the
provider id "must parse as a 128-bit identifier in the canonical
8-4-4-4-12 lowercase hex form".  The parse keeps the canonical string,
which is also what `uuid.UUID.String()` renders back. -/
def parseUUID (s : String) : Option String :=
  if uuidShape s.toList then some s else none

/-- The JSON body of `POST /dlr` after decoding. -/
structure DLRRequest where
  providerId : String
  status : String

/-- `transport.statusFromString`: a raw cast, `domain.Status(s)`. -/
def statusFromString (s : String) : Status := s

/-- `Handler.HandleDLR` (`transport/http.go`): 400 when provider id or
status is empty or the provider id does not parse as a UUID; otherwise the
service call, 500 on its error, 204 on success.  No check constrains the
status string beyond non-emptiness. -/
def handleDLRHttp (req : DLRRequest) (now : Nat) (st : Store) : Nat × Store :=
  if req.providerId == "" || req.status == "" then (400, st)
  else
    match parseUUID req.providerId with
    | none => (400, st)
    | some pid =>
      match handleDLR pid (statusFromString req.status) now st with
      | .error _ => (500, st)
      | .ok st1 => (204, st1)

/-! ## Specification views of one publisher poll cycle -/

/-- Whether the cycle's handoff of `m` reaches a successful publish. -/
def okFor (o : PublishOracles) (m : Message) : Bool :=
  !o.markQueuedFails m.id && !o.publishFails m.id

/-- The events one selected row contributes to the cycle trace. -/
def eventsFor (o : PublishOracles) (m : Message) : List PubEvent :=
  if o.markQueuedFails m.id then [.markQueued m.id false]
  else if o.publishFails m.id then
    [.markQueued m.id true, .publish m.id false, .compensate m.id]
  else [.markQueued m.id true, .publish m.id true]

/-- The whole cycle trace predicted from the selected rows in order. -/
def traceFor (o : PublishOracles) : List Message → List PubEvent
  | [] => []
  | m :: rest => eventsFor o m ++ traceFor o rest

/-- The final state of a row after a cycle that selected the ids `ids`:
unselected rows are untouched; a selected row stays as it was when its
mark-queued write failed, is compensated back to pending when its publish
failed, and is queued otherwise. -/
def rowAfterCycle (o : PublishOracles) (now : Nat) (ids : List Nat) (m : Message) : Message :=
  if ids.contains m.id then
    if o.markQueuedFails m.id then m
    else if o.publishFails m.id then { m with status := StatusPending, updatedAt := now }
    else { m with status := StatusQueued, updatedAt := now }
  else m

/-- Erase the wall-clock `updatedAt` column of a row. -/
def rowCore (m : Message) : Message := { m with updatedAt := 0 }

/-- Erase the wall-clock `updatedAt` column of every row of a store. -/
def storeCore (s : Store) : Store := { s with messages := s.messages.map rowCore }

/-! ## Concrete fixtures used by witnesses and counterexamples -/

/-- A pending row, id 1, created at instant 1. -/
def msgA : Message :=
  { id := 1, broadcastId := 7, toNumber := "+1", body := "hi", status := StatusPending,
    providerId := "", createdAt := 1, updatedAt := 1 }

/-- A pending row, id 2, created at instant 2. -/
def msgB : Message :=
  { id := 2, broadcastId := 7, toNumber := "+2", body := "hi", status := StatusPending,
    providerId := "", createdAt := 2, updatedAt := 2 }

/-- A store with one broadcast and the two pending rows. -/
def demoStore : Store := { broadcasts := [newBroadcast 7 "n" 0], messages := [msgA, msgB] }

/-- Publisher oracle: every store write succeeds, the broker publish of
row 1 fails. -/
def demoOracles : PublishOracles :=
  { markQueuedFails := fun _ => false, publishFails := fun i => i == 1 }

/-- A queued row awaiting the worker, provider id still empty. -/
def msgQ : Message :=
  { id := 1, broadcastId := 7, toNumber := "+1", body := "hi", status := StatusQueued,
    providerId := "", createdAt := 0, updatedAt := 0 }

/-- The store holding just the queued row. -/
def stQ : Store := { broadcasts := [], messages := [msgQ] }

/-- A delivered (terminal) row whose provider id is "x". -/
def msgDel : Message :=
  { id := 1, broadcastId := 7, toNumber := "+1", body := "hi", status := StatusDelivered,
    providerId := "x", createdAt := 0, updatedAt := 0 }

/-- A canonical-form UUID string. -/
def uuidX : String := "0a1b2c3d-0000-1111-2222-333344445555"

/-- A sent row correlated to the gateway by `uuidX`. -/
def msgSent : Message :=
  { id := 1, broadcastId := 7, toNumber := "+1", body := "hi", status := StatusSent,
    providerId := uuidX, createdAt := 0, updatedAt := 0 }

/-- Two pending rows with the same creation instant; the row with the
larger id sits earlier in the table. -/
def msgT2 : Message :=
  { id := 2, broadcastId := 7, toNumber := "+2", body := "hi", status := StatusPending,
    providerId := "", createdAt := 5, updatedAt := 5 }

/-- The tied row with the smaller id, physically second. -/
def msgT1 : Message :=
  { id := 1, broadcastId := 7, toNumber := "+1", body := "hi", status := StatusPending,
    providerId := "", createdAt := 5, updatedAt := 5 }

/-- The tie store: physical order `[msgT2, msgT1]`. -/
def tieStore : Store := { broadcasts := [], messages := [msgT2, msgT1] }

/-! ## Lemmas about the row updaters -/

lemma updRowStatus_id (i : Nat) (s : Status) (n : Nat) (m : Message) :
    (updRowStatus i s n m).id = m.id := by
  unfold updRowStatus; split <;> rfl

lemma updRowPid_id (i : Nat) (p : String) (n : Nat) (m : Message) :
    (updRowPid i p n m).id = m.id := by
  unfold updRowPid; split <;> rfl

lemma updRowByPid_providerId (p : String) (s : Status) (n : Nat) (m : Message) :
    (updRowByPid p s n m).providerId = m.providerId := by
  unfold updRowByPid; split <;> rfl

lemma any_id_map (l : List Message) (f : Message → Message)
    (hf : ∀ m, (f m).id = m.id) (x : Nat) :
    (l.map f).any (fun r => r.id == x) = l.any (fun r => r.id == x) := by
  rw [List.any_map]
  congr 1
  funext m
  simp [Function.comp, hf]

lemma any_pid_map (l : List Message) (f : Message → Message)
    (hf : ∀ m, (f m).providerId = m.providerId) (x : String) :
    (l.map f).any (fun r => r.providerId == x) = l.any (fun r => r.providerId == x) := by
  rw [List.any_map]
  congr 1
  funext m
  simp [Function.comp, hf]

lemma updateMessageStatus_ok (i : Nat) (s : Status) (n : Nat) (st : Store)
    (h : st.messages.any (fun r => r.id == i) = true) :
    updateMessageStatus i s n st
      = .ok { st with messages := st.messages.map (updRowStatus i s n) } := by
  simp [updateMessageStatus, h]

/-! ## Lemmas about `rowAfterCycle` -/

lemma rowAfterCycle_nil (o : PublishOracles) (now : Nat) (m : Message) :
    rowAfterCycle o now [] m = m := by
  simp [rowAfterCycle]

lemma rowAfterCycle_cons_markFail (o : PublishOracles) (now : Nat) (i : Nat) (ids : List Nat)
    (h : o.markQueuedFails i = true) (m : Message) :
    rowAfterCycle o now ids m = rowAfterCycle o now (i :: ids) m := by
  unfold rowAfterCycle
  by_cases hm : m.id = i
  · subst hm
    simp [h]
  · simp [List.contains_cons, hm, Ne.symm hm]

lemma rowAfterCycle_cons_pubFail (o : PublishOracles) (now : Nat) (i : Nat) (ids : List Nat)
    (h1 : o.markQueuedFails i = false) (h2 : o.publishFails i = true)
    (hni : ids.contains i = false) (m : Message) :
    rowAfterCycle o now ids (updRowStatus i StatusPending now (updRowStatus i StatusQueued now m))
      = rowAfterCycle o now (i :: ids) m := by
  unfold rowAfterCycle updRowStatus
  by_cases hm : m.id = i
  · subst hm
    simp [h1, h2, hni]
  · simp [List.contains_cons, hm, Ne.symm hm]

lemma rowAfterCycle_cons_ok (o : PublishOracles) (now : Nat) (i : Nat) (ids : List Nat)
    (h1 : o.markQueuedFails i = false) (h2 : o.publishFails i = false)
    (hni : ids.contains i = false) (m : Message) :
    rowAfterCycle o now ids (updRowStatus i StatusQueued now m)
      = rowAfterCycle o now (i :: ids) m := by
  unfold rowAfterCycle updRowStatus
  by_cases hm : m.id = i
  · subst hm
    simp [h1, h2, hni]
  · simp [List.contains_cons, hm, Ne.symm hm]


/-! ## The publisher poll-cycle characterization -/

lemma publish_foldl_spec (o : PublishOracles) (now : Nat) (sel : List Message) :
    ∀ acc : PublishResult,
      (∀ m ∈ sel, acc.store.messages.any (fun r => r.id == m.id) = true) →
      (sel.map Message.id).Nodup →
      sel.foldl (publishStep o now) acc =
        { store := { acc.store with
            messages := acc.store.messages.map (rowAfterCycle o now (sel.map Message.id)) },
          broker := acc.broker ++ sel.filter (okFor o),
          published := acc.published + (sel.filter (okFor o)).length,
          trace := acc.trace ++ traceFor o sel } := by
  induction sel with
  | nil =>
    intro acc _ _
    have hmap : acc.store.messages.map (rowAfterCycle o now []) = acc.store.messages := by
      have h : rowAfterCycle o now [] = id := funext (fun m => rowAfterCycle_nil o now m)
      rw [h, List.map_id]
    simp [traceFor, hmap]
  | cons m rest ih =>
    intro acc hpres hnd
    have hm : acc.store.messages.any (fun r => r.id == m.id) = true :=
      hpres m (List.mem_cons_self m rest)
    have hrest : ∀ x ∈ rest, acc.store.messages.any (fun r => r.id == x.id) = true :=
      fun x hx => hpres x (List.mem_cons_of_mem m hx)
    have hmid : m.id ∉ rest.map Message.id := (List.nodup_cons.mp hnd).1
    have hnd' : (rest.map Message.id).Nodup := (List.nodup_cons.mp hnd).2
    have hni : (rest.map Message.id).contains m.id = false := by
      simp [hmid]
    rw [List.foldl_cons]
    by_cases hmq : o.markQueuedFails m.id
    · have hstep : publishStep o now acc m
          = { store := acc.store, broker := acc.broker, published := acc.published,
              trace := acc.trace ++ [.markQueued m.id false] } := by
        simp [publishStep, hmq]
      rw [hstep]
      rw [ih { store := acc.store, broker := acc.broker, published := acc.published,
               trace := acc.trace ++ [.markQueued m.id false] }
            (fun x hx => hrest x hx) hnd']
      have hmap : acc.store.messages.map (rowAfterCycle o now (rest.map Message.id))
          = acc.store.messages.map (rowAfterCycle o now (m.id :: rest.map Message.id)) :=
        List.map_congr_left
          (fun x _ => rowAfterCycle_cons_markFail o now m.id (rest.map Message.id) hmq x)
      have hok : okFor o m = false := by
        simp [okFor, hmq]
      simp [hmap, hok, traceFor, eventsFor, hmq]
    · have hmqf : o.markQueuedFails m.id = false := by
        simp [hmq]
      have h1 := updateMessageStatus_ok m.id StatusQueued now acc.store hm
      by_cases hpub : o.publishFails m.id
      · have hany : ((acc.store.messages.map (updRowStatus m.id StatusQueued now)).any
            (fun r => r.id == m.id)) = true := by
          rw [any_id_map _ _ (fun x => updRowStatus_id m.id StatusQueued now x)]
          exact hm
        have h2 := updateMessageStatus_ok m.id StatusPending now
          ⟨acc.store.broadcasts, acc.store.messages.map (updRowStatus m.id StatusQueued now)⟩ hany
        have hstep : publishStep o now acc m
            = ⟨⟨acc.store.broadcasts,
                (acc.store.messages.map (updRowStatus m.id StatusQueued now)).map
                  (updRowStatus m.id StatusPending now)⟩,
               acc.broker, acc.published,
               acc.trace ++ [.markQueued m.id true, .publish m.id false, .compensate m.id]⟩ := by
          simp [publishStep, hmq, hpub, h1, h2, orKeep]
        rw [hstep]
        rw [ih ⟨⟨acc.store.broadcasts,
                (acc.store.messages.map (updRowStatus m.id StatusQueued now)).map
                  (updRowStatus m.id StatusPending now)⟩,
               acc.broker, acc.published,
               acc.trace ++ [PubEvent.markQueued m.id true, PubEvent.publish m.id false,
                             PubEvent.compensate m.id]⟩
              (fun x hx => by
                have e1 := any_id_map
                  (acc.store.messages.map (updRowStatus m.id StatusQueued now))
                  (updRowStatus m.id StatusPending now)
                  (fun y => updRowStatus_id m.id StatusPending now y) x.id
                have e2 := any_id_map acc.store.messages
                  (updRowStatus m.id StatusQueued now)
                  (fun y => updRowStatus_id m.id StatusQueued now y) x.id
                exact e1.trans (e2.trans (hrest x hx)))
              hnd']
        have hmap : acc.store.messages.map
              ((rowAfterCycle o now (rest.map Message.id))
                ∘ ((updRowStatus m.id StatusPending now) ∘ (updRowStatus m.id StatusQueued now)))
            = acc.store.messages.map (rowAfterCycle o now (m.id :: rest.map Message.id)) :=
          List.map_congr_left
            (fun x _ => rowAfterCycle_cons_pubFail o now m.id (rest.map Message.id) hmqf hpub hni x)
        have hok : okFor o m = false := by
          simp [okFor, hpub]
        simp only [List.map_map] at hmap ⊢
        simp [hmap, hok, traceFor, eventsFor, hmqf, hpub]
      · have hpubf : o.publishFails m.id = false := by
          simp [hpub]
        have hstep : publishStep o now acc m
            = ⟨⟨acc.store.broadcasts,
                acc.store.messages.map (updRowStatus m.id StatusQueued now)⟩,
               acc.broker ++ [m], acc.published + 1,
               acc.trace ++ [.markQueued m.id true, .publish m.id true]⟩ := by
          simp [publishStep, hmq, hpub, h1]
        rw [hstep]
        rw [ih ⟨⟨acc.store.broadcasts,
                acc.store.messages.map (updRowStatus m.id StatusQueued now)⟩,
               acc.broker ++ [m], acc.published + 1,
               acc.trace ++ [PubEvent.markQueued m.id true, PubEvent.publish m.id true]⟩
              (fun x hx => by
                have e2 := any_id_map acc.store.messages
                  (updRowStatus m.id StatusQueued now)
                  (fun y => updRowStatus_id m.id StatusQueued now y) x.id
                exact e2.trans (hrest x hx))
              hnd']
        have hmap : acc.store.messages.map
              ((rowAfterCycle o now (rest.map Message.id)) ∘ (updRowStatus m.id StatusQueued now))
            = acc.store.messages.map (rowAfterCycle o now (m.id :: rest.map Message.id)) :=
          List.map_congr_left
            (fun x _ => rowAfterCycle_cons_ok o now m.id (rest.map Message.id) hmqf hpubf hni x)
        have hok : okFor o m = true := by
          simp [okFor, hmqf, hpubf]
        simp only [List.map_map] at hmap ⊢
        simp [hmap, hok, traceFor, eventsFor, hmqf, hpubf, Nat.add_assoc, Nat.add_comm 1]

/-! ## Properties of the selection query -/

lemma getPendingMessages_subset (limit : Nat) (st : Store) :
    ∀ m ∈ getPendingMessages limit st, m ∈ st.messages := by
  intro m hm
  unfold getPendingMessages at hm
  have h1 := List.take_subset limit
    ((st.messages.filter (fun r => r.status == StatusPending)).insertionSort msgOrder) hm
  have h2 := (List.perm_insertionSort msgOrder
    (st.messages.filter (fun r => r.status == StatusPending))).mem_iff.mp h1
  exact (List.mem_filter.mp h2).1

lemma getPendingMessages_pending (limit : Nat) (st : Store) :
    ∀ m ∈ getPendingMessages limit st, m.status = StatusPending := by
  intro m hm
  unfold getPendingMessages at hm
  have h1 := List.take_subset limit
    ((st.messages.filter (fun r => r.status == StatusPending)).insertionSort msgOrder) hm
  have h2 := (List.perm_insertionSort msgOrder
    (st.messages.filter (fun r => r.status == StatusPending))).mem_iff.mp h1
  exact beq_iff_eq.mp (List.mem_filter.mp h2).2

lemma getPendingMessages_nodup_ids (limit : Nat) (st : Store)
    (hN : (st.messages.map Message.id).Nodup) :
    ((getPendingMessages limit st).map Message.id).Nodup := by
  have hfil : ((st.messages.filter (fun r => r.status == StatusPending)).map Message.id).Nodup :=
    hN.sublist ((List.filter_sublist st.messages).map Message.id)
  have hsort : (((st.messages.filter (fun r => r.status == StatusPending)).insertionSort
      msgOrder).map Message.id).Nodup :=
    (((List.perm_insertionSort msgOrder
      (st.messages.filter (fun r => r.status == StatusPending))).map Message.id).symm).nodup hfil
  exact hsort.sublist ((List.take_sublist limit _).map Message.id)

lemma getPendingMessages_any (limit : Nat) (st : Store) :
    ∀ m ∈ getPendingMessages limit st,
      st.messages.any (fun r => r.id == m.id) = true := by
  intro m hm
  exact List.any_eq_true.mpr ⟨m, getPendingMessages_subset limit st m hm, beq_self_eq_true m.id⟩

/-! ## Claim theorems -/

/-- C1 (code bug): the claim demands that `CreateBroadcast` persist the
Broadcast and its Messages in one atomic commit with no observable partial
state.  The code commits them separately (`SaveBroadcast`, then
`SaveMessages`): when the messages insert fails after the broadcast insert
committed, the call errors yet the store durably holds the Broadcast with
zero Messages — exactly the stranded partial state the claim rules out. -/
theorem C1_create_broadcast_partial_commit :
    (createBroadcast ⟨"n", "hi", ["+1", "+2"]⟩ 7 (fun i => 10 + i) 0
        ⟨false, true⟩ ⟨[], []⟩).2 = some .saveMessagesError
    ∧ (createBroadcast ⟨"n", "hi", ["+1", "+2"]⟩ 7 (fun i => 10 + i) 0
        ⟨false, true⟩ ⟨[], []⟩).1.broadcasts = [newBroadcast 7 "n" 0]
    ∧ (createBroadcast ⟨"n", "hi", ["+1", "+2"]⟩ 7 (fun i => 10 + i) 0
        ⟨false, true⟩ ⟨[], []⟩).1.messages = [] := by
  decide

/-- C3 (code bug): the claim (with the spec) says that on a gateway error
the worker transitions the row queued→failed and acks without requeue.
The code does transition the row to failed, but `SendMessage` then returns
the provider error, and `Consume` nacks WITH requeue on a handler error:
the delivery is redelivered rather than acknowledged. -/
theorem C3_gateway_error_requeued_not_acked :
    (consumeDelivery (some msgQ) ⟨.error (), false, false⟩ 5 stQ).2 = .nackRequeue
    ∧ ¬ (consumeDelivery (some msgQ) ⟨.error (), false, false⟩ 5 stQ).2 = .ack
    ∧ (consumeDelivery (some msgQ) ⟨.error (), false, false⟩ 5 stQ).1.messages
        = [{ msgQ with status := StatusFailed, updatedAt := 5 }] := by
  decide

/-- C4 (counterexample): the claim says any store-update failure after a
successful gateway submission leads to nack-with-requeue.  When only
`SetProviderID` fails (the external id is lost), the code merely logs,
still transitions the row to sent, and ACKS the delivery. -/
theorem C4_counterexample_setpid_failure_still_acked :
    (consumeDelivery (some msgQ) ⟨.ok "X", true, false⟩ 5 stQ).2 = .ack
    ∧ (consumeDelivery (some msgQ) ⟨.ok "X", true, false⟩ 5 stQ).1.messages
        = [{ msgQ with status := StatusSent, updatedAt := 5 }] := by
  decide

/-- C5 (code bug): the claim (a spec invariant) says a row in terminal
status (delivered/failed) is never transitioned again.  No pipeline
operation guards on the current status: a second DLR for the same provider
id carrying the other terminal tag moves a delivered row to failed. -/
theorem C5_terminal_row_retransitioned :
    msgDel.status = StatusDelivered
    ∧ handleDLR "x" StatusFailed 9 ⟨[], [msgDel]⟩
        = .ok ⟨[], [{ msgDel with status := StatusFailed, updatedAt := 9 }]⟩ := by
  decide

/-- C6 (code bug): the claim says the DLR path accepts only the two
terminal status values and rejects anything else without updating a row.
`statusFromString` is a raw cast and no handler validates the value, so a
DLR carrying status "queued" is applied to the matched row and answered
204. -/
theorem C6_nonterminal_dlr_status_accepted :
    (handleDLRHttp ⟨uuidX, "queued"⟩ 9 ⟨[], [msgSent]⟩).1 = 204
    ∧ (handleDLRHttp ⟨uuidX, "queued"⟩ 9 ⟨[], [msgSent]⟩).2.messages
        = [{ msgSent with status := "queued", updatedAt := 9 }]
    ∧ ¬ statusFromString "queued" = StatusDelivered
    ∧ ¬ statusFromString "queued" = StatusFailed := by
  decide

/-- C8 (counterexample): the claim says a non-empty provider id is never
overwritten with a different value.  A delivery whose sent-transition
fails is nack-requeued with provider id "X" already persisted; the
redelivery sends again and `SetProviderID` overwrites "X" with "Y". -/
theorem C8_counterexample_provider_id_overwritten :
    (consumeDelivery (some msgQ) ⟨.ok "X", false, true⟩ 5 stQ).1.messages.map
        Message.providerId = ["X"]
    ∧ (consumeDelivery (some msgQ) ⟨.ok "X", false, true⟩ 5 stQ).2 = .nackRequeue
    ∧ ((consumeDelivery (some msgQ) ⟨.ok "Y", false, false⟩ 6
          (consumeDelivery (some msgQ) ⟨.ok "X", false, true⟩ 5 stQ).1).1.messages.map
        Message.providerId) = ["Y"] := by
  decide

/-- C9 (counterexample): the claim says ties on the creation timestamp are
broken by message id.  The query orders by `created_at` only; with two
pending rows sharing a timestamp, the row with the larger id is returned
first, so the output violates an id tie-break. -/
theorem C9_counterexample_no_id_tiebreak :
    getPendingMessages 2 tieStore = [msgT2, msgT1]
    ∧ msgT2.createdAt = msgT1.createdAt
    ∧ msgT1.id < msgT2.id := by
  decide

/-- C2 (confirmed): in a publisher poll cycle every selected pending row is
handled by the three-step handoff in order — the trace equation lists, per
row and in selection order, the mark-queued write first, then the publish,
then the compensation exactly when the publish failed; a store or broker
failure on one row leaves the remaining rows' events in the trace, so the
cycle is not aborted; the final store maps each selected row to queued on
success, back to pending on a failed publish, and leaves it untouched on a
failed mark-queued write; the returned count (and the broker content) is
exactly the rows whose publish succeeded; and with no pending rows the
cycle returns zero and changes nothing.  Store writes are keyed by row id,
so the store must not hold duplicate message ids. -/
theorem C2_publisher_cycle (B : Nat) (o : PublishOracles) (now : Nat) (st : Store)
    (hN : (st.messages.map Message.id).Nodup) :
    publishPendingMessages B o now st =
      { store := { st with
          messages := st.messages.map
            (rowAfterCycle o now ((getPendingMessages B st).map Message.id)) },
        broker := (getPendingMessages B st).filter (okFor o),
        published := ((getPendingMessages B st).filter (okFor o)).length,
        trace := traceFor o (getPendingMessages B st) }
    ∧ (getPendingMessages B st = [] →
        publishPendingMessages B o now st = ⟨st, [], 0, []⟩) := by
  have h := publish_foldl_spec o now (getPendingMessages B st) ⟨st, [], 0, []⟩
    (fun m hm => getPendingMessages_any B st m hm)
    (getPendingMessages_nodup_ids B st hN)
  constructor
  · unfold publishPendingMessages
    simpa using h
  · intro hempty
    unfold publishPendingMessages
    rw [hempty]
    rfl

/-- C2 witness: the theorem applied to the two-row demo store under the
oracle that fails the broker publish of row 1. -/
theorem C2_publisher_cycle_witness :
    publishPendingMessages 10 demoOracles 5 demoStore =
      { store := { demoStore with
          messages := demoStore.messages.map
            (rowAfterCycle demoOracles 5 ((getPendingMessages 10 demoStore).map Message.id)) },
        broker := (getPendingMessages 10 demoStore).filter (okFor demoOracles),
        published := ((getPendingMessages 10 demoStore).filter (okFor demoOracles)).length,
        trace := traceFor demoOracles (getPendingMessages 10 demoStore) }
    ∧ (getPendingMessages 10 demoStore = [] →
        publishPendingMessages 10 demoOracles 5 demoStore = ⟨demoStore, [], 0, []⟩) :=
  C2_publisher_cycle 10 demoOracles 5 demoStore (by decide)

lemma setProviderID_ok (i : Nat) (pid : String) (n : Nat) (st : Store)
    (h : st.messages.any (fun r => r.id == i) = true) :
    setProviderID i pid n st
      = .ok { st with messages := st.messages.map (updRowPid i pid n) } := by
  simp [setProviderID, h]

lemma updateMessageStatusByProviderID_ok (pid : String) (s : Status) (n : Nat) (st : Store)
    (h : st.messages.any (fun r => r.providerId == pid) = true) :
    updateMessageStatusByProviderID pid s n st
      = .ok { st with messages := st.messages.map (updRowByPid pid s n) } := by
  simp [updateMessageStatusByProviderID, h]

lemma updRowPid_overwrite (i : Nat) (p1 p2 : String) (n1 n2 : Nat) (m : Message) :
    updRowPid i p2 n2 (updRowPid i p1 n1 m) = updRowPid i p2 n2 m := by
  unfold updRowPid
  by_cases h : m.id == i <;> simp [h]

lemma updRowByPid_self_idem (pid : String) (s : Status) (n : Nat) (m : Message) :
    updRowByPid pid s n (updRowByPid pid s n m) = updRowByPid pid s n m := by
  unfold updRowByPid
  by_cases h : m.providerId == pid <;> simp [h]

lemma rowCore_updRowByPid_twice (pid : String) (s : Status) (n1 n2 : Nat) (m : Message) :
    rowCore (updRowByPid pid s n2 (updRowByPid pid s n1 m))
      = rowCore (updRowByPid pid s n1 m) := by
  unfold rowCore updRowByPid
  by_cases h : m.providerId == pid <;> simp [h]

/-- C4 (corrected, amended): when the gateway's Send succeeds, the worker
persists the external id (when that write succeeds — a `SetProviderID`
failure is only logged and skipped), then transitions the row queued→sent,
and only then acks; when the queued→sent update fails the delivery is
nacked with requeue; but a failure of the external-id write alone does NOT
cause a nack — the delivery is still acked, with the external id lost. -/
theorem C4_amended_worker_success (st : Store) (msg : Message) (pid : String)
    (f1 f2 : Bool) (now : Nat)
    (hmem : st.messages.any (fun r => r.id == msg.id) = true) :
    (f2 = false →
      (consumeDelivery (some msg) ⟨.ok pid, f1, f2⟩ now st).2 = .ack
      ∧ (consumeDelivery (some msg) ⟨.ok pid, f1, f2⟩ now st).1.messages
          = (if f1 then st.messages
             else st.messages.map (updRowPid msg.id pid now)).map
              (updRowStatus msg.id StatusSent now))
    ∧ (f2 = true →
      (consumeDelivery (some msg) ⟨.ok pid, f1, f2⟩ now st).2 = .nackRequeue
      ∧ (consumeDelivery (some msg) ⟨.ok pid, f1, f2⟩ now st).1.messages
          = (if f1 then st.messages
             else st.messages.map (updRowPid msg.id pid now))) := by
  have hsp := setProviderID_ok msg.id pid now st hmem
  have hany1 : (st.messages.map (updRowPid msg.id pid now)).any
      (fun r => r.id == msg.id) = true := by
    rw [any_id_map _ _ (fun y => updRowPid_id msg.id pid now y)]
    exact hmem
  have hu1 := updateMessageStatus_ok msg.id StatusSent now
    ⟨st.broadcasts, st.messages.map (updRowPid msg.id pid now)⟩ hany1
  have hu0 := updateMessageStatus_ok msg.id StatusSent now st hmem
  constructor <;> intro hf2 <;> subst hf2 <;> cases f1 <;>
    simp [consumeDelivery, sendMessage, orKeep, hsp, hu0, hu1]

/-- C4 witness: the amended theorem at the queued demo row with both store
writes succeeding. -/
theorem C4_amended_worker_success_witness :
    (false = false →
      (consumeDelivery (some msgQ) ⟨.ok "X", false, false⟩ 5 stQ).2 = .ack
      ∧ (consumeDelivery (some msgQ) ⟨.ok "X", false, false⟩ 5 stQ).1.messages
          = (if false then stQ.messages
             else stQ.messages.map (updRowPid msgQ.id "X" 5)).map
              (updRowStatus msgQ.id StatusSent 5))
    ∧ (false = true →
      (consumeDelivery (some msgQ) ⟨.ok "X", false, false⟩ 5 stQ).2 = .nackRequeue
      ∧ (consumeDelivery (some msgQ) ⟨.ok "X", false, false⟩ 5 stQ).1.messages
          = (if false then stQ.messages
             else stQ.messages.map (updRowPid msgQ.id "X" 5))) :=
  C4_amended_worker_success stQ msgQ "X" false false 5 (by decide)

/-- C7 (confirmed): applying the same DLR payload (same provider id, same
terminal status) twice leaves the matched rows in the same state as
applying it once: re-application at the same clock instant is a strict
no-op on the whole store, and at any later instant it changes nothing but
the wall-clock `updated_at` column (the second application also succeeds,
since the provider id of the matched rows is untouched). -/
theorem C7_dlr_idempotent (pid : String) (status : Status) (now1 now2 : Nat) (st : Store) :
    ((handleDLR pid status now1 st).bind (fun s => handleDLR pid status now1 s)
        = handleDLR pid status now1 st)
    ∧ (((handleDLR pid status now1 st).bind (fun s => handleDLR pid status now2 s)).map storeCore
        = (handleDLR pid status now1 st).map storeCore) := by
  by_cases h : st.messages.any (fun r => r.providerId == pid)
  · have h1 := updateMessageStatusByProviderID_ok pid status now1 st h
    have hany2 : (st.messages.map (updRowByPid pid status now1)).any
        (fun r => r.providerId == pid) = true := by
      rw [any_pid_map _ _ (fun y => updRowByPid_providerId pid status now1 y)]
      exact h
    have h2 := updateMessageStatusByProviderID_ok pid status now1
      ⟨st.broadcasts, st.messages.map (updRowByPid pid status now1)⟩ hany2
    have h2' := updateMessageStatusByProviderID_ok pid status now2
      ⟨st.broadcasts, st.messages.map (updRowByPid pid status now1)⟩ hany2
    constructor
    · rw [handleDLR, h1]
      show handleDLR pid status now1 _ = _
      rw [handleDLR, h2]
      have hmap : (st.messages.map (updRowByPid pid status now1)).map
            (updRowByPid pid status now1) = st.messages.map (updRowByPid pid status now1) := by
        rw [List.map_map]
        exact List.map_congr_left
          (fun x _ => updRowByPid_self_idem pid status now1 x)
      simp [hmap]
    · rw [handleDLR, h1]
      show Except.map storeCore (handleDLR pid status now2 _) = _
      rw [handleDLR, h2']
      simp [Except.map, storeCore]
      exact fun a _ => rowCore_updRowByPid_twice pid status now1 now2 a
  · have h0 : handleDLR pid status now1 st = .error .notFound := by
      have hb : st.messages.any (fun r => r.providerId == pid) = false := by
        simp [h]
      simp [handleDLR, updateMessageStatusByProviderID, hb]
    simp [h0, Except.bind, Except.map]

/-- C8 (corrected, amended): the external provider id is NOT write-once:
`SetProviderID` is an unconditional UPDATE, so the last write wins — a
second write to the same row (as happens when a nack-requeued delivery
calls the gateway again after a failed sent-transition) replaces whatever
provider id is stored, non-empty or not, with the newly supplied value. -/
theorem C8_amended_provider_id_last_write_wins (st : Store) (i : Nat) (p1 p2 : String)
    (n1 n2 : Nat) (hmem : st.messages.any (fun r => r.id == i) = true) :
    setProviderID i p1 n1 st
        = .ok ⟨st.broadcasts, st.messages.map (updRowPid i p1 n1)⟩
    ∧ setProviderID i p2 n2 ⟨st.broadcasts, st.messages.map (updRowPid i p1 n1)⟩
        = .ok ⟨st.broadcasts, st.messages.map (updRowPid i p2 n2)⟩ := by
  have h1 := setProviderID_ok i p1 n1 st hmem
  have hany : (st.messages.map (updRowPid i p1 n1)).any (fun r => r.id == i) = true := by
    rw [any_id_map _ _ (fun y => updRowPid_id i p1 n1 y)]
    exact hmem
  have h2 := setProviderID_ok i p2 n2 ⟨st.broadcasts, st.messages.map (updRowPid i p1 n1)⟩ hany
  refine ⟨h1, ?_⟩
  rw [h2]
  have hmap : (st.messages.map (updRowPid i p1 n1)).map (updRowPid i p2 n2)
      = st.messages.map (updRowPid i p2 n2) := by
    rw [List.map_map]
    exact List.map_congr_left (fun x _ => updRowPid_overwrite i p1 p2 n1 n2 x)
  simp [hmap]

/-- C8 witness: the amended theorem at the one-row store, writing "X" then
"Y". -/
theorem C8_amended_provider_id_last_write_wins_witness :
    setProviderID msgQ.id "X" 5 stQ
        = .ok ⟨stQ.broadcasts, stQ.messages.map (updRowPid msgQ.id "X" 5)⟩
    ∧ setProviderID msgQ.id "Y" 6 ⟨stQ.broadcasts, stQ.messages.map (updRowPid msgQ.id "X" 5)⟩
        = .ok ⟨stQ.broadcasts, stQ.messages.map (updRowPid msgQ.id "Y" 6)⟩ :=
  C8_amended_provider_id_last_write_wins stQ msgQ.id "X" "Y" 5 6 (by decide)

/-- C9 (corrected, amended): a poll cycle selects only rows with status
pending, at most B of them, in ascending creation-timestamp order, and
they are the oldest pending rows — every pending row left unselected has a
creation timestamp at least that of every selected row.  The order among
rows with equal timestamps is NOT determined by the message id (the query
orders by `created_at` alone). -/
theorem C9_amended_selection (B : Nat) (st : Store) :
    (∀ m ∈ getPendingMessages B st, m.status = StatusPending ∧ m ∈ st.messages)
    ∧ (getPendingMessages B st).length ≤ B
    ∧ List.Sorted msgOrder (getPendingMessages B st)
    ∧ List.Perm
        ((st.messages.filter (fun r => r.status == StatusPending)).insertionSort msgOrder)
        (st.messages.filter (fun r => r.status == StatusPending))
    ∧ (∀ a ∈ getPendingMessages B st,
        ∀ b ∈ ((st.messages.filter (fun r => r.status == StatusPending)).insertionSort
                msgOrder).drop B,
          a.createdAt ≤ b.createdAt) := by
  refine ⟨fun m hm => ⟨getPendingMessages_pending B st m hm,
    getPendingMessages_subset B st m hm⟩, ?_, ?_,
    List.perm_insertionSort msgOrder _, ?_⟩
  · exact (List.length_take B _).le.trans (Nat.min_le_left _ _)
  · exact List.Pairwise.sublist (List.take_sublist B _)
      (List.sorted_insertionSort msgOrder _)
  · have hs := List.sorted_insertionSort msgOrder
      (st.messages.filter (fun r => r.status == StatusPending))
    rw [← List.take_append_drop B
      ((st.messages.filter (fun r => r.status == StatusPending)).insertionSort msgOrder)] at hs
    exact fun a ha b hb => (List.pairwise_append.mp hs).2.2 a ha b hb

/-- C9 witness: the amended theorem at the tie store with batch size 2. -/
theorem C9_amended_selection_witness :
    (∀ m ∈ getPendingMessages 2 tieStore, m.status = StatusPending ∧ m ∈ tieStore.messages)
    ∧ (getPendingMessages 2 tieStore).length ≤ 2
    ∧ List.Sorted msgOrder (getPendingMessages 2 tieStore)
    ∧ List.Perm
        ((tieStore.messages.filter (fun r => r.status == StatusPending)).insertionSort msgOrder)
        (tieStore.messages.filter (fun r => r.status == StatusPending))
    ∧ (∀ a ∈ getPendingMessages 2 tieStore,
        ∀ b ∈ ((tieStore.messages.filter (fun r => r.status == StatusPending)).insertionSort
                msgOrder).drop 2,
          a.createdAt ≤ b.createdAt) :=
  C9_amended_selection 2 tieStore

/-- C10 (confirmed): the repository status updates return an error exactly
when no row matches the given key (and that error is the not-found error,
never `ErrInvalidStatus`); when rows match, the update succeeds and
unconditionally overwrites the status of every matched row with exactly
the supplied value, regardless of the row's current status — no status
graph is enforced at the repository layer. -/
theorem C10_repo_updates_unconditional (i : Nat) (pid : String) (s : Status) (now : Nat)
    (st : Store) :
    ((updateMessageStatus i s now st = .error RepoError.notFound)
        ↔ ∀ m ∈ st.messages, m.id ≠ i)
    ∧ (∀ st', updateMessageStatus i s now st = .ok st' →
        st'.messages = st.messages.map (updRowStatus i s now))
    ∧ ¬ updateMessageStatus i s now st = .error RepoError.invalidStatus
    ∧ ((updateMessageStatusByProviderID pid s now st = .error RepoError.notFound)
        ↔ ∀ m ∈ st.messages, m.providerId ≠ pid)
    ∧ (∀ st', updateMessageStatusByProviderID pid s now st = .ok st' →
        st'.messages = st.messages.map (updRowByPid pid s now))
    ∧ ¬ updateMessageStatusByProviderID pid s now st = .error RepoError.invalidStatus := by
  refine ⟨?_, ?_, ?_, ?_, ?_, ?_⟩
  · by_cases h : st.messages.any (fun r => r.id == i) = true
    · rw [updateMessageStatus_ok i s now st h]
      refine iff_of_false (by simp) ?_
      obtain ⟨m0, hm0, hq⟩ := List.any_eq_true.mp h
      intro hall
      exact hall m0 hm0 (beq_iff_eq.mp hq)
    · have hfalse : st.messages.any (fun r => r.id == i) = false := by
        simpa using h
      have h0 : updateMessageStatus i s now st = .error .notFound := by
        simp [updateMessageStatus, hfalse]
      rw [h0]
      refine iff_of_true rfl ?_
      intro m hm heq
      exact absurd (beq_iff_eq.mpr heq) (by simpa using List.any_eq_false.mp hfalse m hm)
  · intro st' hst'
    by_cases h : st.messages.any (fun r => r.id == i) = true
    · rw [updateMessageStatus_ok i s now st h] at hst'
      rw [← Except.ok.inj hst']
    · have hfalse : st.messages.any (fun r => r.id == i) = false := by
        simpa using h
      rw [updateMessageStatus] at hst'
      rw [hfalse] at hst'
      simp at hst'
  · by_cases h : st.messages.any (fun r => r.id == i) = true
    · rw [updateMessageStatus_ok i s now st h]
      simp
    · have hfalse : st.messages.any (fun r => r.id == i) = false := by
        simpa using h
      have h0 : updateMessageStatus i s now st = .error .notFound := by
        simp [updateMessageStatus, hfalse]
      rw [h0]
      simp
  · by_cases h : st.messages.any (fun r => r.providerId == pid) = true
    · rw [updateMessageStatusByProviderID_ok pid s now st h]
      refine iff_of_false (by simp) ?_
      obtain ⟨m0, hm0, hq⟩ := List.any_eq_true.mp h
      intro hall
      exact hall m0 hm0 (beq_iff_eq.mp hq)
    · have hfalse : st.messages.any (fun r => r.providerId == pid) = false := by
        simpa using h
      have h0 : updateMessageStatusByProviderID pid s now st = .error .notFound := by
        simp [updateMessageStatusByProviderID, hfalse]
      rw [h0]
      refine iff_of_true rfl ?_
      intro m hm heq
      exact absurd (beq_iff_eq.mpr heq) (by simpa using List.any_eq_false.mp hfalse m hm)
  · intro st' hst'
    by_cases h : st.messages.any (fun r => r.providerId == pid) = true
    · rw [updateMessageStatusByProviderID_ok pid s now st h] at hst'
      rw [← Except.ok.inj hst']
    · have hfalse : st.messages.any (fun r => r.providerId == pid) = false := by
        simpa using h
      rw [updateMessageStatusByProviderID] at hst'
      rw [hfalse] at hst'
      simp at hst'
  · by_cases h : st.messages.any (fun r => r.providerId == pid) = true
    · rw [updateMessageStatusByProviderID_ok pid s now st h]
      simp
    · have hfalse : st.messages.any (fun r => r.providerId == pid) = false := by
        simpa using h
      have h0 : updateMessageStatusByProviderID pid s now st = .error .notFound := by
        simp [updateMessageStatusByProviderID, hfalse]
      rw [h0]
      simp

/-- C10 witness: the theorem at a concrete id, provider id, status and
store. -/
theorem C10_repo_updates_unconditional_witness :
    ((updateMessageStatus 1 StatusSent 5 demoStore = .error RepoError.notFound)
        ↔ ∀ m ∈ demoStore.messages, m.id ≠ 1)
    ∧ (∀ st', updateMessageStatus 1 StatusSent 5 demoStore = .ok st' →
        st'.messages = demoStore.messages.map (updRowStatus 1 StatusSent 5))
    ∧ ¬ updateMessageStatus 1 StatusSent 5 demoStore = .error RepoError.invalidStatus
    ∧ ((updateMessageStatusByProviderID "x" StatusSent 5 demoStore = .error RepoError.notFound)
        ↔ ∀ m ∈ demoStore.messages, m.providerId ≠ "x")
    ∧ (∀ st', updateMessageStatusByProviderID "x" StatusSent 5 demoStore = .ok st' →
        st'.messages = demoStore.messages.map (updRowByPid "x" StatusSent 5))
    ∧ ¬ updateMessageStatusByProviderID "x" StatusSent 5 demoStore
        = .error RepoError.invalidStatus :=
  C10_repo_updates_unconditional 1 "x" StatusSent 5 demoStore
